import Mathlib

/-!
Verification of the score-formatting and control logic of `src/bot.py`
(fantasy-media-bot). Scores are modelled as rationals; Python's `float`
arithmetic is exact on every value these claims touch (halves of small
integers), so the embedding is faithful on the quantities compared.
Fallible operations are modelled with `Except`; the outbound HTTP call is
modelled by an oracle `ok : Nat → Bool` giving the outcome of each attempt.
-/

namespace FantasyBot

/-- Whitespace test backing Python's `str.strip` for the ASCII whitespace
characters: space, tab, newline, carriage return, vertical tab, form feed. -/
def pyIsSpace (c : Char) : Bool :=
  c = ' ' || c = '\t' || c = '\n' || c = '\r' || c = Char.ofNat 11 || c = Char.ofNat 12

/-- Python `str.strip()`: drop leading and trailing whitespace. -/
def pyStrip (s : String) : String :=
  String.mk (((s.toList.dropWhile pyIsSpace).reverse.dropWhile pyIsSpace).reverse)

/-- Prefix of the error message raised by `require_secret` (src/bot.py line 19). -/
def secretErrPre : String := "Missing required secret: "

/-- Suffix of the error message raised by `require_secret` (src/bot.py lines 20-22). -/
def secretErrSuf : String :=
  ". Set it in GitHub → Settings → Secrets and variables → Actions, and pass it into the workflow env."

/-- The full error message of `require_secret`, naming the missing secret. -/
def secretErrMsg (name : String) : String := secretErrPre ++ name ++ secretErrSuf

/-- Embeds `require_secret` (src/bot.py lines 16-24). The environment is a map
from variable names to optional values; a raised `RuntimeError` is an
`Except.error`. Python's guard `not v or not v.strip()` is equivalent, for a
present string `v`, to `v.strip() == ""`, since the empty string strips to
itself. On success the stripped value is returned. -/
def require_secret (env : String → Option String) (name : String) : Except String String :=
  match env name with
  | none => Except.error (secretErrMsg name)
  | some v => if pyStrip v = "" then Except.error (secretErrMsg name) else Except.ok (pyStrip v)

/-- Name of the first required secret (src/bot.py line 27). -/
def espnSwidKey : String := "ESPN_SWID"

/-- Name of the second required secret (src/bot.py line 28). -/
def espnS2Key : String := "ESPN_S2"

/-- Name of the webhook target id secret (src/bot.py line 29). -/
def groupmeBotKey : String := "GROUPME_BOT_ID"

/-- The three required secrets loaded at startup (src/bot.py lines 27-29). -/
def requiredSecrets : List String := [espnSwidKey, espnS2Key, groupmeBotKey]

/-- Embeds the module-level secret loading at startup (src/bot.py lines 27-29):
the three `require_secret` calls run before anything else, and the first
failure aborts the program. -/
def loadStartupSecrets (env : String → Option String) :
    Except String (String × String × String) :=
  match require_secret env espnSwidKey with
  | Except.error e => Except.error e
  | Except.ok swid =>
    match require_secret env espnS2Key with
    | Except.error e => Except.error e
    | Except.ok s2 =>
      match require_secret env groupmeBotKey with
      | Except.error e => Except.error e
      | Except.ok bot => Except.ok (swid, s2, bot)

/-- Observable outcome of one run of the `post_to_groupme` retry loop:
how many HTTP attempts were made, whether the call finally succeeded (a
`false` means the last exception was re-raised to the caller), and the
backoff sleeps performed between attempts, in order. -/
structure PostResult where
  attempts : Nat
  success : Bool
  sleeps : List ℚ

/-- Embeds the retry loop of `post_to_groupme` (src/bot.py lines 48-61).
`ok a` is the outcome of HTTP attempt number `a` (1-based); `rem` counts the
retries still allowed, i.e. `rem = retries - (attempt - 1)`, so `rem = 0`
corresponds to the source's `attempt > retries` re-raise guard. After a failed
attempt that still has retries left, the loop sleeps `backoff * attempt`. -/
def postLoop (ok : Nat → Bool) (backoff : ℚ) : Nat → Nat → PostResult
  | attempt, 0 => if ok attempt then ⟨attempt, true, []⟩ else ⟨attempt, false, []⟩
  | attempt, rem + 1 =>
    if ok attempt then ⟨attempt, true, []⟩
    else
      let rest := postLoop ok backoff (attempt + 1) rem
      ⟨rest.attempts, rest.success, backoff * (attempt : ℚ) :: rest.sleeps⟩

/-- Embeds `post_to_groupme` with its default arguments `retries = 2`,
`backoff = 1.5` (src/bot.py line 44), starting at attempt 1. -/
def post_to_groupme (ok : Nat → Bool) : PostResult :=
  postLoop ok (3 / 2) 1 2

/-- Embeds Python `statistics.median` as called by the formatters: sort
ascending, take the middle element for odd length, the average of the two
middle elements for even length. The source only ever calls it on non-empty
lists (where `statistics.median` would raise); the empty case is mapped to 0
and is unreachable from the callers. -/
def median (l : List ℚ) : ℚ :=
  if (List.insertionSort (· ≤ ·) l).length % 2 = 1 then
    (List.insertionSort (· ≤ ·) l).getD ((List.insertionSort (· ≤ ·) l).length / 2) 0
  else
    ((List.insertionSort (· ≤ ·) l).getD ((List.insertionSort (· ≤ ·) l).length / 2 - 1) 0 +
      (List.insertionSort (· ≤ ·) l).getD ((List.insertionSort (· ≤ ·) l).length / 2) 0) / 2

/-- Ordering relation of the descending score sort: `a` may precede `b` iff
`a`'s score is at least `b`'s. -/
def scoreGe (a b : String × ℚ) : Prop := b.2 ≤ a.2

instance : DecidableRel scoreGe := fun a b => inferInstanceAs (Decidable (b.2 ≤ a.2))

instance : IsTotal (String × ℚ) scoreGe := ⟨fun a b => le_total b.2 a.2⟩

instance : IsTrans (String × ℚ) scoreGe := ⟨fun _ _ _ h1 h2 => le_trans h2 h1⟩

/-- Embeds `sorted(team_scores, key=lambda x: x[1], reverse=True)`
(src/bot.py lines 94 and 116): a stable sort by score descending, modelled by
insertion sort, which is stable like Python's sort. -/
def sortByScoreDesc (ts : List (String × ℚ)) : List (String × ℚ) :=
  List.insertionSort scoreGe ts

/-- Embeds `zero_count = sum(1 for s in scores if s == 0)` (src/bot.py line 90). -/
def zeroCount (scores : List ℚ) : Nat := (scores.filter fun s => decide (s = 0)).length

/-- Embeds `zero_heavy = zero_count >= 6 or zero_count >= total / 2`
(src/bot.py line 92). The Python comparison uses true division; on these
magnitudes float halves are exact, so rational division models it exactly. -/
def zero_heavy (scores : List ℚ) : Bool :=
  decide (6 ≤ zeroCount scores) ||
    decide ((scores.length : ℚ) / 2 ≤ (zeroCount scores : ℚ))

/-- Embeds the local `non_zero = [s for s in scores if s > 0]`
(src/bot.py line 101). -/
def non_zeroScores (scores : List ℚ) : List ℚ := scores.filter fun s => decide (0 < s)

/-- Embeds the local `usable = non_zero if non_zero else scores`
(src/bot.py line 102). -/
def usableScores (scores : List ℚ) : List ℚ :=
  if (non_zeroScores scores).isEmpty then scores else non_zeroScores scores

/-- Embeds the standard-branch mark condition
`score >= median_score and (median_score == 0 or score > 0)`
(src/bot.py line 107). -/
def currentMark (m s : ℚ) : Bool := decide (m ≤ s) && (decide (m = 0) || decide (0 < s))

/-- Structured content of `format_current_scores` (src/bot.py lines 85-109):
the computed median together with the annotated entries
(name, score, pass mark) in output order. The rendered text is exactly these
entries passed through `renderLine`, so order, scores and marks of the output
lines are those of this list. -/
def format_current_scores_core (ts : List (String × ℚ)) : ℚ × List (String × ℚ × Bool) :=
  if ts.isEmpty then (0, [])
  else if zero_heavy (ts.map Prod.snd) then
    (0, (sortByScoreDesc ts).map fun p => (p.1, p.2, decide (0 < p.2)))
  else
    (median (usableScores (ts.map Prod.snd)),
      (sortByScoreDesc ts).map fun p =>
        (p.1, p.2, currentMark (median (usableScores (ts.map Prod.snd))) p.2))

/-- Structured content of `format_projected_scores` (src/bot.py lines 111-118):
median of all scores, entries sorted descending, pass mark iff score is at
least the median. -/
def format_projected_scores_core (ts : List (String × ℚ)) : ℚ × List (String × ℚ × Bool) :=
  if ts.isEmpty then (0, [])
  else
    (median (ts.map Prod.snd),
      (sortByScoreDesc ts).map fun p => (p.1, p.2, decide (median (ts.map Prod.snd) ≤ p.2)))

/-- Pass glyph used by both formatters. -/
def passGlyph : String := "✅"

/-- Fail glyph used by both formatters. -/
def failGlyph : String := "❌"

/-- Sentinel message returned on empty input (src/bot.py lines 87 and 113). -/
def noDataMsg : String := "No matchups found."

/-- Line separator joining the rendered entries. -/
def nlStr : String := "\n"

/-- One-decimal rendering of a score, rounding half to even as Python's
`{s:.1f}` float formatting does on exactly-representable values. -/
def fmtQ1 (q : ℚ) : String :=
  let x := q * 10
  let n : ℤ := ⌊x⌋
  let r : ℚ := x - (n : ℚ)
  let t : ℤ :=
    if r < 1 / 2 then n else if 1 / 2 < r then n + 1 else if n % 2 = 0 then n else n + 1
  let a := t.natAbs
  (if t < 0 then "-" else "") ++ toString (a / 10) ++ "." ++ toString (a % 10)

/-- Embeds the f-string `"{n}: {s:.1f} {mark}"` of src/bot.py lines 98, 108, 117. -/
def renderLine (name : String) (score : ℚ) (mark : Bool) : String :=
  name ++ ": " ++ fmtQ1 score ++ " " ++ (if mark then passGlyph else failGlyph)

/-- Embeds `"\n".join(lines)` over the structured entries. -/
def renderLines (es : List (String × ℚ × Bool)) : String :=
  String.intercalate nlStr (es.map fun e => renderLine e.1 e.2.1 e.2.2)

/-- Embeds `format_current_scores` (src/bot.py lines 85-109): on empty input
the sentinel with median 0, otherwise the computed median and the joined
rendered lines. -/
def format_current_scores (ts : List (String × ℚ)) : ℚ × String :=
  if ts.isEmpty then (0, noDataMsg)
  else ((format_current_scores_core ts).1, renderLines (format_current_scores_core ts).2)

/-- Embeds `format_projected_scores` (src/bot.py lines 111-118). -/
def format_projected_scores (ts : List (String × ℚ)) : ℚ × String :=
  if ts.isEmpty then (0, noDataMsg)
  else ((format_projected_scores_core ts).1, renderLines (format_projected_scores_core ts).2)

/-- Observable outcome of one invocation of `main` on the no-error path:
whether the message was posted to the webhook, and whether it was printed
locally instead. -/
structure InvocationResult where
  messagePosted : Bool
  messagePrinted : Bool

/-- Embeds the control flow of `main` (src/bot.py lines 150-164) on the
no-error path. The current Eastern time (here in minutes) is read only to
build log and header text; no statement of `main` branches on it. When
`TEST_MODE` is true the message is printed and not posted; otherwise it is
posted. There is no skip path. -/
def main_run (testMode : Bool) (_nowEasternMinutes : Nat) : InvocationResult :=
  ⟨!testMode, testMode⟩

/-- Modelled from the spec: the statistical median of a sequence — middle
value of the sorted sequence for odd length, average of the two middle values
for even length. Stated over a merge sort so that agreement with the source's
`median` is a proved bridge, not a definitional restatement. -/
def specMedian (l : List ℚ) : ℚ :=
  if l.length % 2 = 1 then (l.mergeSort fun a b => decide (a ≤ b)).getD (l.length / 2) 0
  else
    ((l.mergeSort fun a b => decide (a ≤ b)).getD (l.length / 2 - 1) 0 +
      (l.mergeSort fun a b => decide (a ≤ b)).getD (l.length / 2) 0) / 2

/-- Modelled from the spec: "zero-heavy" input per the claim's words — more
than half of the entries, or at least 6, have score zero. -/
def zeroHeavySpec (zc total : Nat) : Prop := total < 2 * zc ∨ 6 ≤ zc

/-- Modelled from the spec: the window gate absent from src/bot.py — a list of
(weekday, minute-of-day) slots with a symmetric tolerance in minutes; true iff
the current time is within tolerance of a slot for the current weekday, or the
override is set. -/
def windowGate (slots : List (Nat × Nat)) (toleranceMin weekday nowMin : Nat)
    (override : Bool) : Bool :=
  override || slots.any fun sl =>
    decide (sl.1 = weekday) && decide (Nat.dist sl.2 nowMin ≤ toleranceMin)

/-- Sample present-but-padded secret value used by witnesses. -/
def sampleSecretVal : String := " token42 "

/-! Helper lemmas relating the embedded definitions. -/

theorem isEmpty_false_of_ne_nil {α : Type} {l : List α} (h : l ≠ []) : l.isEmpty = false := by
  cases l with
  | nil => exact absurd rfl h
  | cons a t => rfl

theorem ratDecideLe_trans :
    ∀ a b c : ℚ, decide (a ≤ b) = true → decide (b ≤ c) = true → decide (a ≤ c) = true := by
  intro a b c hab hbc
  simp only [decide_eq_true_eq] at hab hbc ⊢
  exact le_trans hab hbc

theorem ratDecideLe_total : ∀ a b : ℚ, (decide (a ≤ b) || decide (b ≤ a)) = true := by
  intro a b
  simpa using le_total a b

theorem mergeSortAsc_sorted (l : List ℚ) :
    List.Sorted (· ≤ ·) (l.mergeSort fun a b => decide (a ≤ b)) := by
  have h := List.sorted_mergeSort ratDecideLe_trans ratDecideLe_total l
  exact h.imp fun hab => by simpa using hab

theorem insertionSortAsc_eq_mergeSort (l : List ℚ) :
    List.insertionSort (· ≤ ·) l = l.mergeSort fun a b => decide (a ≤ b) :=
  List.eq_of_perm_of_sorted
    ((List.perm_insertionSort _ l).trans (List.mergeSort_perm l _).symm)
    (List.sorted_insertionSort _ l) (mergeSortAsc_sorted l)

theorem median_eq_specMedian (l : List ℚ) : median l = specMedian l := by
  have hlen : (List.insertionSort (· ≤ ·) l).length = l.length :=
    (List.perm_insertionSort _ l).length_eq
  unfold median specMedian
  rw [hlen, insertionSortAsc_eq_mergeSort]

theorem median_pos (l : List ℚ) (hne : l ≠ []) (hpos : ∀ x ∈ l, 0 < x) : 0 < median l := by
  have hmem : ∀ x ∈ List.insertionSort (· ≤ ·) l, 0 < x := fun x hx =>
    hpos x ((List.mem_insertionSort _).mp hx)
  have hn : 0 < (List.insertionSort (· ≤ ·) l).length := by
    rw [(List.perm_insertionSort _ l).length_eq]
    exact List.length_pos.mpr hne
  have hlt2 : (List.insertionSort (· ≤ ·) l).length / 2 < (List.insertionSort (· ≤ ·) l).length :=
    Nat.div_lt_self hn one_lt_two
  have hlt1 : (List.insertionSort (· ≤ ·) l).length / 2 - 1 <
      (List.insertionSort (· ≤ ·) l).length :=
    lt_of_le_of_lt (Nat.sub_le _ _) hlt2
  unfold median
  by_cases hpar : (List.insertionSort (· ≤ ·) l).length % 2 = 1
  · rw [if_pos hpar, List.getD_eq_getElem _ _ hlt2]
    exact hmem _ (List.getElem_mem hlt2)
  · rw [if_neg hpar, List.getD_eq_getElem _ _ hlt1, List.getD_eq_getElem _ _ hlt2]
    have h1 := hmem _ (List.getElem_mem hlt1)
    have h2 := hmem _ (List.getElem_mem hlt2)
    exact div_pos (add_pos h1 h2) two_pos

theorem nonzero_ne_nil_of_not_zero_heavy (scores : List ℚ) (hnn : ∀ s ∈ scores, 0 ≤ s)
    (hzh : zero_heavy scores = false) : non_zeroScores scores ≠ [] := by
  intro hnil
  have hall : ∀ s ∈ scores, s = 0 := by
    intro s hs
    have hnlt : ¬ (0 < s) := by
      have h := List.filter_eq_nil_iff.mp hnil s hs
      simpa using h
    exact le_antisymm (not_lt.mp hnlt) (hnn s hs)
  have hcount : zeroCount scores = scores.length := by
    unfold zeroCount
    rw [List.filter_eq_self.mpr]
    · intro s hs
      simpa using hall s hs
  have htrue : zero_heavy scores = true := by
    unfold zero_heavy
    rw [hcount]
    have hcast : (0 : ℚ) ≤ (scores.length : ℚ) := Nat.cast_nonneg _
    have hhalf : (scores.length : ℚ) / 2 ≤ (scores.length : ℚ) := by linarith
    simp [hhalf]
  rw [htrue] at hzh
  exact Bool.noConfusion hzh

theorem zero_heavy_iff_nat (scores : List ℚ) :
    zero_heavy scores = true ↔
      6 ≤ zeroCount scores ∨ scores.length ≤ 2 * zeroCount scores := by
  unfold zero_heavy
  have h2 : (0 : ℚ) < 2 := by norm_num
  simp only [Bool.or_eq_true, decide_eq_true_eq]
  constructor
  · rintro (h | h)
    · exact Or.inl h
    · right
      have hq := (div_le_iff₀ h2).mp h
      have hq2 : (scores.length : ℚ) ≤ ((2 * zeroCount scores : ℕ) : ℚ) := by
        push_cast
        linarith
      exact_mod_cast hq2
  · rintro (h | h)
    · exact Or.inl h
    · right
      rw [div_le_iff₀ h2]
      have hq : ((scores.length : ℕ) : ℚ) ≤ ((2 * zeroCount scores : ℕ) : ℚ) := by
        exact_mod_cast h
      push_cast at hq
      linarith

theorem current_core_zero (ts : List (String × ℚ)) (hne : ts ≠ [])
    (hzh : zero_heavy (ts.map Prod.snd) = true) :
    format_current_scores_core ts =
      (0, (sortByScoreDesc ts).map fun p => (p.1, p.2, decide (0 < p.2))) := by
  unfold format_current_scores_core
  rw [isEmpty_false_of_ne_nil hne, hzh]
  simp

theorem current_core_std (ts : List (String × ℚ)) (hne : ts ≠ [])
    (hzh : zero_heavy (ts.map Prod.snd) = false) :
    format_current_scores_core ts =
      (median (usableScores (ts.map Prod.snd)),
        (sortByScoreDesc ts).map fun p =>
          (p.1, p.2, currentMark (median (usableScores (ts.map Prod.snd))) p.2)) := by
  unfold format_current_scores_core
  rw [isEmpty_false_of_ne_nil hne, hzh]
  simp

theorem projected_core_eq (ts : List (String × ℚ)) (hne : ts ≠ []) :
    format_projected_scores_core ts =
      (median (ts.map Prod.snd),
        (sortByScoreDesc ts).map fun p => (p.1, p.2, decide (median (ts.map Prod.snd) ≤ p.2))) := by
  unfold format_projected_scores_core
  rw [isEmpty_false_of_ne_nil hne]
  simp

theorem format_current_fst (ts : List (String × ℚ)) :
    (format_current_scores ts).1 = (format_current_scores_core ts).1 := by
  cases ts <;> rfl

theorem format_projected_fst (ts : List (String × ℚ)) :
    (format_projected_scores ts).1 = (format_projected_scores_core ts).1 := by
  cases ts <;> rfl

theorem usable_eq_non_zero (scores : List ℚ) (hnn : ∀ s ∈ scores, 0 ≤ s)
    (hzh : zero_heavy scores = false) :
    usableScores scores = non_zeroScores scores := by
  unfold usableScores
  rw [isEmpty_false_of_ne_nil (nonzero_ne_nil_of_not_zero_heavy scores hnn hzh)]
  simp

theorem usable_median_pos (scores : List ℚ) (hnn : ∀ s ∈ scores, 0 ≤ s)
    (hzh : zero_heavy scores = false) : 0 < median (usableScores scores) := by
  rw [usable_eq_non_zero scores hnn hzh]
  apply median_pos _ (nonzero_ne_nil_of_not_zero_heavy scores hnn hzh)
  intro x hx
  have hmem := List.mem_filter.mp hx
  simpa using hmem.2

theorem currentMark_iff (m s : ℚ) (hm : 0 < m) : currentMark m s = true ↔ m ≤ s := by
  unfold currentMark
  simp only [Bool.and_eq_true, Bool.or_eq_true, decide_eq_true_eq]
  constructor
  · exact fun h => h.1
  · intro h
    exact ⟨h, Or.inr (lt_of_lt_of_le hm h)⟩

theorem map_fst_snd_of_annotated (s : List (String × ℚ)) (f : String × ℚ → Bool) :
    ((s.map fun p => (p.1, p.2, f p)).map fun e => (e.1, e.2.1)) = s := by
  rw [List.map_map]
  have hcomp :
      ((fun e : String × ℚ × Bool => (e.1, e.2.1)) ∘ fun p : String × ℚ => (p.1, p.2, f p)) =
        id := by
    funext p
    simp
  rw [hcomp, List.map_id]

theorem sortByScoreDesc_chain (ts : List (String × ℚ)) :
    List.Chain' scoreGe (sortByScoreDesc ts) :=
  (List.sorted_insertionSort scoreGe ts).chain'

theorem sortByScoreDesc_perm (ts : List (String × ℚ)) : (sortByScoreDesc ts).Perm ts :=
  List.perm_insertionSort scoreGe ts

theorem current_core_entries_shape (ts : List (String × ℚ)) (hne : ts ≠ []) :
    ∃ g : String × ℚ → Bool,
      (format_current_scores_core ts).2 = (sortByScoreDesc ts).map fun p => (p.1, p.2, g p) := by
  by_cases hzh : zero_heavy (ts.map Prod.snd) = true
  · exact ⟨fun p => decide (0 < p.2), by rw [current_core_zero ts hne hzh]⟩
  · refine ⟨fun p => currentMark (median (usableScores (ts.map Prod.snd))) p.2, ?_⟩
    rw [current_core_std ts hne (Bool.of_not_eq_true hzh)]

/-! Claim theorems. -/

/-- C6: on the empty input list both formatters return the fixed no-data
sentinel message with a reported median of 0 (and, being total functions,
raise nothing). -/
theorem c6_empty_input :
    format_current_scores [] = (0, "No matchups found.")
  ∧ format_projected_scores [] = (0, "No matchups found.") :=
  ⟨rfl, rfl⟩

/-- C3 counterexample: `main` contains no window gate. With the override
(`TEST_MODE`) off and the current time Sunday 10:00, more than the 30-minute
tolerance away from the sole configured slot Sunday 13:00, the spec's gate
says skip (`false`), yet the invocation still posts the message. -/
theorem c3_counterexample :
    (main_run false 600).messagePosted = true
  ∧ windowGate [(0, 780)] 30 0 600 false = false :=
  ⟨rfl, rfl⟩

/-- C3 amended: `main` (src/bot.py lines 150-164) has no window gate. Every
invocation produces output regardless of the current time: the message is
posted to the webhook exactly when `TEST_MODE` is off, and printed instead of
posted exactly when `TEST_MODE` is on; the outcome does not depend on the
time at all. -/
theorem c3_no_window_gate (testMode : Bool) (t1 t2 : Nat) :
    (main_run testMode t1).messagePosted = !testMode
  ∧ (main_run testMode t1).messagePrinted = testMode
  ∧ main_run testMode t1 = main_run testMode t2 :=
  ⟨rfl, rfl, rfl⟩

/-- C5: in both formatters the rendered entries appear sorted by score in
descending order — every adjacent pair (a, b) of output entries satisfies
score(a) ≥ score(b). -/
theorem c5_sorted_descending (ts : List (String × ℚ)) :
    List.Chain' (fun a b => b.2.1 ≤ a.2.1) (format_current_scores_core ts).2
  ∧ List.Chain' (fun a b => b.2.1 ≤ a.2.1) (format_projected_scores_core ts).2 := by
  rcases eq_or_ne ts [] with rfl | hne
  · constructor <;> simp [format_current_scores_core, format_projected_scores_core]
  · have hchain : List.Chain' scoreGe (sortByScoreDesc ts) := sortByScoreDesc_chain ts
    constructor
    · obtain ⟨g, hg⟩ := current_core_entries_shape ts hne
      rw [hg, List.chain'_map]
      exact hchain
    · rw [projected_core_eq ts hne]
      simp only [List.chain'_map]
      exact hchain

/-- C9: each formatter renders exactly one line per input entry, and the
multiset of (name, score) pairs in the output equals the multiset of input
entries — formatting reorders and annotates but never drops, duplicates or
alters an entry. -/
theorem c9_entries_preserved (ts : List (String × ℚ)) :
    ((format_current_scores_core ts).2.map fun e => (e.1, e.2.1)).Perm ts
  ∧ ((format_projected_scores_core ts).2.map fun e => (e.1, e.2.1)).Perm ts
  ∧ (format_current_scores_core ts).2.length = ts.length
  ∧ (format_projected_scores_core ts).2.length = ts.length := by
  rcases eq_or_ne ts [] with rfl | hne
  · refine ⟨?_, ?_, ?_, ?_⟩ <;>
      simp [format_current_scores_core, format_projected_scores_core]
  · obtain ⟨g, hg⟩ := current_core_entries_shape ts hne
    have hcur : ((format_current_scores_core ts).2.map fun e => (e.1, e.2.1)).Perm ts := by
      rw [hg, map_fst_snd_of_annotated]
      exact sortByScoreDesc_perm ts
    have hproj : ((format_projected_scores_core ts).2.map fun e => (e.1, e.2.1)).Perm ts := by
      rw [projected_core_eq ts hne]
      simp only []
      rw [map_fst_snd_of_annotated]
      exact sortByScoreDesc_perm ts
    refine ⟨hcur, hproj, ?_, ?_⟩
    · have := hcur.length_eq
      simpa using this
    · have := hproj.length_eq
      simpa using this

/-- C7: the outbound notification call is a bounded retry loop. It makes at
most 3 attempts (1 original + 2 retries); a first-attempt success returns
immediately with no sleeps; if all 3 attempts fail, the failure is propagated
after linearly increasing backoff sleeps of 1.5·1 and 1.5·2 seconds; and a
propagated failure only happens after all 3 attempts. -/
theorem c7_retry_loop (ok : Nat → Bool) :
    (post_to_groupme ok).attempts ≤ 3
  ∧ (ok 1 = true → post_to_groupme ok = ⟨1, true, []⟩)
  ∧ (ok 1 = false → ok 2 = false → ok 3 = false →
      post_to_groupme ok = ⟨3, false, [3 / 2 * 1, 3 / 2 * 2]⟩)
  ∧ ((post_to_groupme ok).success = false → (post_to_groupme ok).attempts = 3) := by
  refine ⟨?_, ?_, ?_, ?_⟩ <;>
    rcases h1 : ok 1 with _ | _ <;> rcases h2 : ok 2 with _ | _ <;>
      rcases h3 : ok 3 with _ | _ <;>
        simp [post_to_groupme, postLoop, h1, h2, h3]

/-- C7 witness: concrete oracles exercising both hypothesised branches — an
always-succeeding call returns after attempt 1 with no sleeps, and an
always-failing call makes 3 attempts, sleeps 1.5 then 3.0 seconds, and
propagates the failure. -/
theorem c7_retry_loop_witness :
    ((fun _ => true : Nat → Bool) 1 = true
      ∧ post_to_groupme (fun _ => true) = ⟨1, true, []⟩)
  ∧ ((fun _ => false : Nat → Bool) 1 = false
      ∧ post_to_groupme (fun _ => false) = ⟨3, false, [3 / 2 * 1, 3 / 2 * 2]⟩) :=
  ⟨⟨rfl, (c7_retry_loop (fun _ => true)).2.1 rfl⟩,
    ⟨rfl, (c7_retry_loop (fun _ => false)).2.2.1 rfl rfl rfl⟩⟩

/-- C8: for each of the three required secrets, an absent or blank
environment value makes `require_secret` fail with the descriptive message
naming that secret — and startup as a whole (`loadStartupSecrets`) fails —
while a present non-blank value is returned unchanged except for whitespace
trimming. -/
theorem c8_required_secrets (env : String → Option String) (name : String)
    (hmem : name ∈ requiredSecrets) :
    (env name = none → require_secret env name = Except.error (secretErrMsg name))
  ∧ (∀ v, env name = some v → pyStrip v = "" →
      require_secret env name = Except.error (secretErrMsg name))
  ∧ (∀ v, env name = some v → pyStrip v ≠ "" →
      require_secret env name = Except.ok (pyStrip v))
  ∧ (∃ pre suf, secretErrMsg name = pre ++ name ++ suf)
  ∧ ((env name = none ∨ ∃ v, env name = some v ∧ pyStrip v = "") →
      ∃ msg, loadStartupSecrets env = Except.error msg) := by
  have herr : (env name = none ∨ ∃ v, env name = some v ∧ pyStrip v = "") →
      require_secret env name = Except.error (secretErrMsg name) := by
    rintro (hnone | ⟨v, hv, hblank⟩)
    · unfold require_secret
      rw [hnone]
    · unfold require_secret
      rw [hv]
      simp [hblank]
  refine ⟨?_, ?_, ?_, ⟨secretErrPre, secretErrSuf, rfl⟩, ?_⟩
  · intro hnone
    exact herr (Or.inl hnone)
  · intro v hv hblank
    exact herr (Or.inr ⟨v, hv, hblank⟩)
  · intro v hv hok
    unfold require_secret
    rw [hv]
    simp [hok]
  · intro hbad
    have hfail := herr hbad
    simp only [requiredSecrets, List.mem_cons, List.not_mem_nil, or_false] at hmem
    rcases hmem with rfl | rfl | rfl
    · exact ⟨secretErrMsg espnSwidKey, by simp [loadStartupSecrets, hfail]⟩
    · rcases hs : require_secret env espnSwidKey with m | v1
      · exact ⟨m, by simp [loadStartupSecrets, hs]⟩
      · exact ⟨secretErrMsg espnS2Key, by simp [loadStartupSecrets, hs, hfail]⟩
    · rcases hs : require_secret env espnSwidKey with m | v1
      · exact ⟨m, by simp [loadStartupSecrets, hs]⟩
      · rcases hs2 : require_secret env espnS2Key with m2 | v2
        · exact ⟨m2, by simp [loadStartupSecrets, hs, hs2]⟩
        · exact ⟨secretErrMsg groupmeBotKey, by simp [loadStartupSecrets, hs, hs2, hfail]⟩

/-- C4: in every formatter output, under the zero-heavy policy an entry gets
the pass glyph iff its score is strictly positive, and under the standard
policy iff its score is at least the computed median (for scores that are
nonnegative, as the data model requires); the projected formatter always uses
the standard rule. On the spec's example input the computed median is 104.5
and the output is A(120.5, pass), C(110.0, pass), B(99.0, fail),
D(85.5, fail). -/
theorem c4_pass_mark (ts : List (String × ℚ)) (hnn : ∀ p ∈ ts, 0 ≤ p.2) :
    (∀ e ∈ (format_current_scores_core ts).2,
        (zero_heavy (ts.map Prod.snd) = true → (e.2.2 = true ↔ 0 < e.2.1))
      ∧ (zero_heavy (ts.map Prod.snd) = false →
          (e.2.2 = true ↔ (format_current_scores ts).1 ≤ e.2.1)))
  ∧ (∀ e ∈ (format_projected_scores_core ts).2,
        e.2.2 = true ↔ (format_projected_scores ts).1 ≤ e.2.1)
  ∧ format_current_scores_core [("A", (120.5 : ℚ)), ("B", 99.0), ("C", 110.0), ("D", 85.5)] =
      (104.5, [("A", 120.5, true), ("C", 110.0, true), ("B", 99.0, false), ("D", 85.5, false)]) := by
  have hnns : ∀ s ∈ ts.map Prod.snd, 0 ≤ s := by
    intro s hs
    obtain ⟨q, hq, rfl⟩ := List.mem_map.mp hs
    exact hnn q hq
  refine ⟨?_, ?_, by with_unfolding_all rfl⟩
  · rcases eq_or_ne ts [] with rfl | hne
    · intro e he
      simp [format_current_scores_core] at he
    · intro e he
      constructor
      · intro hzh
        rw [current_core_zero ts hne hzh] at he
        obtain ⟨p, hp, rfl⟩ := List.mem_map.mp he
        simp
      · intro hzh
        rw [current_core_std ts hne hzh] at he
        obtain ⟨p, hp, rfl⟩ := List.mem_map.mp he
        have hm : 0 < median (usableScores (ts.map Prod.snd)) :=
          usable_median_pos _ hnns hzh
        have hfst : (format_current_scores ts).1 = median (usableScores (ts.map Prod.snd)) := by
          rw [format_current_fst, current_core_std ts hne hzh]
        rw [hfst]
        exact currentMark_iff _ _ hm
  · rcases eq_or_ne ts [] with rfl | hne
    · intro e he
      simp [format_projected_scores_core] at he
    · intro e he
      rw [projected_core_eq ts hne] at he
      obtain ⟨p, hp, rfl⟩ := List.mem_map.mp he
      have hfst : (format_projected_scores ts).1 = median (ts.map Prod.snd) := by
        rw [format_projected_fst, projected_core_eq ts hne]
      rw [hfst]
      simp

/-- C4 witness: the theorem applied at the one-entry input [("A", 1)], whose
score is nonnegative, together with the spec's four-team example. -/
theorem c4_pass_mark_witness :
    (∀ p ∈ [("A", (1 : ℚ))], 0 ≤ p.2)
  ∧ ((∀ e ∈ (format_current_scores_core [("A", (1 : ℚ))]).2,
        (zero_heavy ([("A", (1 : ℚ))].map Prod.snd) = true → (e.2.2 = true ↔ 0 < e.2.1))
      ∧ (zero_heavy ([("A", (1 : ℚ))].map Prod.snd) = false →
          (e.2.2 = true ↔ (format_current_scores [("A", (1 : ℚ))]).1 ≤ e.2.1)))
    ∧ (∀ e ∈ (format_projected_scores_core [("A", (1 : ℚ))]).2,
        e.2.2 = true ↔ (format_projected_scores [("A", (1 : ℚ))]).1 ≤ e.2.1)
    ∧ format_current_scores_core [("A", (120.5 : ℚ)), ("B", 99.0), ("C", 110.0), ("D", 85.5)] =
        (104.5, [("A", 120.5, true), ("C", 110.0, true), ("B", 99.0, false), ("D", 85.5, false)]))
    := by
  have hnn : ∀ p ∈ [("A", (1 : ℚ))], 0 ≤ p.2 := by
    intro p hp
    simp only [List.mem_singleton] at hp
    subst hp
    norm_num
  exact ⟨hnn, c4_pass_mark _ hnn⟩

/-- C10: whenever the current-score formatter takes the standard branch on a
non-empty input of nonnegative scores, at least one score is strictly
positive, the fallback from the non-zero list to the full score list is
unreachable, and the computed median is strictly positive, so the
`median_score == 0` disjunct of the mark condition cannot fire. -/
theorem c10_standard_branch (ts : List (String × ℚ)) (hne : ts ≠ [])
    (hnn : ∀ p ∈ ts, 0 ≤ p.2) (hzh : zero_heavy (ts.map Prod.snd) = false) :
    non_zeroScores (ts.map Prod.snd) ≠ []
  ∧ usableScores (ts.map Prod.snd) = non_zeroScores (ts.map Prod.snd)
  ∧ (format_current_scores ts).1 = median (non_zeroScores (ts.map Prod.snd))
  ∧ 0 < (format_current_scores ts).1
  ∧ (format_current_scores ts).1 ≠ 0 := by
  have hnns : ∀ s ∈ ts.map Prod.snd, 0 ≤ s := by
    intro s hs
    obtain ⟨q, hq, rfl⟩ := List.mem_map.mp hs
    exact hnn q hq
  have h1 := nonzero_ne_nil_of_not_zero_heavy _ hnns hzh
  have h2 := usable_eq_non_zero _ hnns hzh
  have hfst : (format_current_scores ts).1 = median (usableScores (ts.map Prod.snd)) := by
    rw [format_current_fst, current_core_std ts hne hzh]
  have hpos : 0 < (format_current_scores ts).1 := by
    rw [hfst]
    exact usable_median_pos _ hnns hzh
  exact ⟨h1, h2, by rw [hfst, h2], hpos, ne_of_gt hpos⟩

/-- C10 witness: the theorem applied at [("A", 1), ("B", 2)], a non-empty
nonnegative input on which the zero-heavy test is false. -/
theorem c10_standard_branch_witness :
    (([("A", (1 : ℚ)), ("B", 2)] ≠ ([] : List (String × ℚ)))
      ∧ (∀ p ∈ [("A", (1 : ℚ)), ("B", 2)], 0 ≤ p.2)
      ∧ zero_heavy ([("A", (1 : ℚ)), ("B", 2)].map Prod.snd) = false)
  ∧ (non_zeroScores ([("A", (1 : ℚ)), ("B", 2)].map Prod.snd) ≠ []
      ∧ usableScores ([("A", (1 : ℚ)), ("B", 2)].map Prod.snd) =
          non_zeroScores ([("A", (1 : ℚ)), ("B", 2)].map Prod.snd)
      ∧ (format_current_scores [("A", (1 : ℚ)), ("B", 2)]).1 =
          median (non_zeroScores ([("A", (1 : ℚ)), ("B", 2)].map Prod.snd))
      ∧ 0 < (format_current_scores [("A", (1 : ℚ)), ("B", 2)]).1
      ∧ (format_current_scores [("A", (1 : ℚ)), ("B", 2)]).1 ≠ 0) := by
  have hne : [("A", (1 : ℚ)), ("B", 2)] ≠ ([] : List (String × ℚ)) :=
    List.cons_ne_nil _ _
  have hnn : ∀ p ∈ [("A", (1 : ℚ)), ("B", 2)], 0 ≤ p.2 := by
    intro p hp
    rcases List.mem_cons.mp hp with rfl | hp2
    · norm_num
    · rcases List.mem_cons.mp hp2 with rfl | hp3
      · norm_num
      · simp at hp3
  have hzh : zero_heavy ([("A", (1 : ℚ)), ("B", 2)].map Prod.snd) = false := by
    with_unfolding_all rfl
  exact ⟨⟨hne, hnn, hzh⟩, c10_standard_branch _ hne hnn hzh⟩

/-- C1 counterexample: on input [("A",0),("B",10),("C",20),("D",30),("E",40)]
the statistical median of all five scores is 20, but the current-score
formatter reports 25 — it computes the median of the non-zero scores
[10, 20, 30, 40] — so the claim fails for the current-score formatter. -/
theorem c1_counterexample :
    (format_current_scores [("A", (0 : ℚ)), ("B", 10), ("C", 20), ("D", 30), ("E", 40)]).1 = 25
  ∧ specMedian ([("A", (0 : ℚ)), ("B", 10), ("C", 20), ("D", 30), ("E", 40)].map Prod.snd) = 20
  ∧ ((25 : ℚ) ≠ 20) := by
  refine ⟨by with_unfolding_all rfl, ?_, by norm_num⟩
  rw [← median_eq_specMedian]
  with_unfolding_all rfl

/-- C1 amended: the projected-score formatter's median is the statistical
median of all input scores; the current-score formatter's median is 0 under
the zero-heavy policy and otherwise the statistical median of the `usable`
list — the strictly positive scores, falling back to all scores when none is
positive. -/
theorem c1_median_policy (ts : List (String × ℚ)) (hne : ts ≠ []) :
    (format_projected_scores ts).1 = specMedian (ts.map Prod.snd)
  ∧ (zero_heavy (ts.map Prod.snd) = true → (format_current_scores ts).1 = 0)
  ∧ (zero_heavy (ts.map Prod.snd) = false →
      (format_current_scores ts).1 = specMedian (usableScores (ts.map Prod.snd))) := by
  refine ⟨?_, ?_, ?_⟩
  · rw [format_projected_fst, projected_core_eq ts hne, ← median_eq_specMedian]
  · intro hzh
    rw [format_current_fst, current_core_zero ts hne hzh]
  · intro hzh
    rw [format_current_fst, current_core_std ts hne hzh, ← median_eq_specMedian]

/-- C1 witness: the amended theorem applied at the non-empty input
[("A", 3), ("B", 7)]. -/
theorem c1_median_policy_witness :
    ([("A", (3 : ℚ)), ("B", 7)] ≠ ([] : List (String × ℚ)))
  ∧ ((format_projected_scores [("A", (3 : ℚ)), ("B", 7)]).1 =
        specMedian ([("A", (3 : ℚ)), ("B", 7)].map Prod.snd)
    ∧ (zero_heavy ([("A", (3 : ℚ)), ("B", 7)].map Prod.snd) = true →
        (format_current_scores [("A", (3 : ℚ)), ("B", 7)]).1 = 0)
    ∧ (zero_heavy ([("A", (3 : ℚ)), ("B", 7)].map Prod.snd) = false →
        (format_current_scores [("A", (3 : ℚ)), ("B", 7)]).1 =
          specMedian (usableScores ([("A", (3 : ℚ)), ("B", 7)].map Prod.snd)))) :=
  ⟨List.cons_ne_nil _ _, c1_median_policy _ (List.cons_ne_nil _ _)⟩

/-- C2 counterexample: on input [("A",0),("B",10)] exactly half (not more
than half) of the 2 entries are zero and fewer than 6 are, so the claim's
trigger condition is false and it predicts the standard policy; yet the code
applies the zero-heavy policy: the zero-heavy flag is set, the reported
median is forced to 0 (the statistical median of all scores being 5 ≠ 0),
and the marks are score > 0. -/
theorem c2_counterexample :
    ¬ zeroHeavySpec (zeroCount ([("A", (0 : ℚ)), ("B", 10)].map Prod.snd))
        ([("A", (0 : ℚ)), ("B", 10)].length)
  ∧ zero_heavy ([("A", (0 : ℚ)), ("B", 10)].map Prod.snd) = true
  ∧ (format_current_scores [("A", (0 : ℚ)), ("B", 10)]).1 = 0
  ∧ (format_current_scores_core [("A", (0 : ℚ)), ("B", 10)]).2 =
      [("B", 10, true), ("A", 0, false)]
  ∧ specMedian ([("A", (0 : ℚ)), ("B", 10)].map Prod.snd) = 5
  ∧ ((5 : ℚ) ≠ 0) := by
  refine ⟨?_, by with_unfolding_all rfl, by with_unfolding_all rfl,
    by with_unfolding_all rfl, ?_, by norm_num⟩
  · have hzc : zeroCount ([("A", (0 : ℚ)), ("B", 10)].map Prod.snd) = 1 := by
      with_unfolding_all rfl
    rw [hzc]
    show ¬ zeroHeavySpec 1 2
    unfold zeroHeavySpec
    decide
  · rw [← median_eq_specMedian]
    with_unfolding_all rfl

/-- C2 amended: the current-score formatter applies the zero-heavy policy
(median forced to 0 and pass mark meaning score > 0) exactly when at least
half of the entries — not "more than half" — or at least 6 entries have score
zero; otherwise it computes the median of the `usable` scores and marks by
the standard-branch condition. -/
theorem c2_zero_heavy_trigger (ts : List (String × ℚ)) (hne : ts ≠ []) :
    (zero_heavy (ts.map Prod.snd) = true ↔
      6 ≤ zeroCount (ts.map Prod.snd) ∨ ts.length ≤ 2 * zeroCount (ts.map Prod.snd))
  ∧ (zero_heavy (ts.map Prod.snd) = true →
      (format_current_scores ts).1 = 0
      ∧ ∀ e ∈ (format_current_scores_core ts).2, e.2.2 = decide (0 < e.2.1))
  ∧ (zero_heavy (ts.map Prod.snd) = false →
      (format_current_scores ts).1 = median (usableScores (ts.map Prod.snd))
      ∧ ∀ e ∈ (format_current_scores_core ts).2,
          e.2.2 = currentMark (median (usableScores (ts.map Prod.snd))) e.2.1) := by
  refine ⟨?_, ?_, ?_⟩
  · have h := zero_heavy_iff_nat (ts.map Prod.snd)
    rwa [List.length_map] at h
  · intro hzh
    refine ⟨by rw [format_current_fst, current_core_zero ts hne hzh], ?_⟩
    intro e he
    rw [current_core_zero ts hne hzh] at he
    obtain ⟨p, hp, rfl⟩ := List.mem_map.mp he
    rfl
  · intro hzh
    refine ⟨by rw [format_current_fst, current_core_std ts hne hzh], ?_⟩
    intro e he
    rw [current_core_std ts hne hzh] at he
    obtain ⟨p, hp, rfl⟩ := List.mem_map.mp he
    rfl

/-- C2 witness: the amended theorem applied at the non-empty all-zero input
[("A", 0), ("B", 0)], on which the zero-heavy policy fires. -/
theorem c2_zero_heavy_trigger_witness :
    ([("A", (0 : ℚ)), ("B", 0)] ≠ ([] : List (String × ℚ)))
  ∧ ((zero_heavy ([("A", (0 : ℚ)), ("B", 0)].map Prod.snd) = true ↔
      6 ≤ zeroCount ([("A", (0 : ℚ)), ("B", 0)].map Prod.snd) ∨
        [("A", (0 : ℚ)), ("B", 0)].length ≤
          2 * zeroCount ([("A", (0 : ℚ)), ("B", 0)].map Prod.snd))
    ∧ (zero_heavy ([("A", (0 : ℚ)), ("B", 0)].map Prod.snd) = true →
        (format_current_scores [("A", (0 : ℚ)), ("B", 0)]).1 = 0
        ∧ ∀ e ∈ (format_current_scores_core [("A", (0 : ℚ)), ("B", 0)]).2,
            e.2.2 = decide (0 < e.2.1))
    ∧ (zero_heavy ([("A", (0 : ℚ)), ("B", 0)].map Prod.snd) = false →
        (format_current_scores [("A", (0 : ℚ)), ("B", 0)]).1 =
          median (usableScores ([("A", (0 : ℚ)), ("B", 0)].map Prod.snd))
        ∧ ∀ e ∈ (format_current_scores_core [("A", (0 : ℚ)), ("B", 0)]).2,
            e.2.2 = currentMark
              (median (usableScores ([("A", (0 : ℚ)), ("B", 0)].map Prod.snd))) e.2.1)) :=
  ⟨List.cons_ne_nil _ _, c2_zero_heavy_trigger _ (List.cons_ne_nil _ _)⟩

/-- C8 witness: with an empty environment the first secret is reported
missing with its descriptive message and startup fails; with a padded value
present, the trimmed value is returned. -/
theorem c8_required_secrets_witness :
    espnSwidKey ∈ requiredSecrets
  ∧ require_secret (fun _ => none) espnSwidKey = Except.error (secretErrMsg espnSwidKey)
  ∧ (∃ msg, loadStartupSecrets (fun _ => none) = Except.error msg)
  ∧ require_secret (fun _ => some sampleSecretVal) espnSwidKey =
      Except.ok (pyStrip sampleSecretVal) := by
  have hmem : espnSwidKey ∈ requiredSecrets := by simp [requiredSecrets]
  have h1 := c8_required_secrets (fun _ => none) espnSwidKey hmem
  have h2 := c8_required_secrets (fun _ => some sampleSecretVal) espnSwidKey hmem
  exact ⟨hmem, h1.1 rfl, h1.2.2.2.2 (Or.inl rfl),
    h2.2.2.1 sampleSecretVal rfl (by decide)⟩

end FantasyBot
